import Mathlib

/-!
Shallow embedding of the flipboard-scraper core (pkg/scraper.go) and proofs of
the specification claims about it.

Modelling conventions:
* Time and rate values are rationals (Go `time.Time` / `float64`).
* The `golang.org/x/time/rate` limiter is embedded by its token-bucket state
  and the reservation computation performed by `Limiter.Wait` / `reserveN`.
* The gocolly collector is embedded by the state the scraper code interacts
  with: the `AllowURLRevisit` flag and the visited-URL store consulted by
  `Collector.Visit` (which returns an already-visited error when the URL was
  visited and revisits are not allowed, and otherwise marks it visited).
* `ScrapeURLs` spawns one errgroup task per URL with `errgroup.WithContext`,
  whose derived context is cancelled when the first task returns an error.
  The embedding runs the tasks in list order with the shared limiter,
  collector state, first-error slot and article buffer threaded through: this
  is the deterministic execution realised under `SetLimit(1)` scheduling and
  an admissible serialization of the concurrent executions.
* Contexts are embedded by the error they report when done: `parentErr` is
  the state of the caller-supplied (timeout-derived) context at invocation,
  and group cancellation contributes `context.Canceled`.
-/

/-- Whitespace test used by Go `strings.Fields` / `strings.TrimSpace`
(`unicode.IsSpace`): ASCII space characters plus the Latin-1 and Unicode
space characters. -/
def goIsSpace (c : Char) : Bool :=
  c == (' ') || c == ('\t') || c == ('\n') || c == (Char.ofNat 11) ||
  c == (Char.ofNat 12) || c == ('\r') || c == (Char.ofNat 0x85) ||
  c == (Char.ofNat 0xA0) || c == (Char.ofNat 0x1680) ||
  (Char.ofNat 0x2000 ≤ c && c ≤ Char.ofNat 0x200A) ||
  c == (Char.ofNat 0x2028) || c == (Char.ofNat 0x2029) ||
  c == (Char.ofNat 0x202F) || c == (Char.ofNat 0x205F) ||
  c == (Char.ofNat 0x3000)

/-- Accumulator pass of Go `strings.FieldsFunc`: split a character list into
the maximal runs of characters on which `p` is false (`cur` is the current
run, reversed). -/
def fieldsFuncAux (p : Char → Bool) : List Char → List Char → List (List Char)
  | [], [] => []
  | [], cur => [cur.reverse]
  | c :: rest, cur =>
    if p c then
      match cur with
      | [] => fieldsFuncAux p rest []
      | _ => cur.reverse :: fieldsFuncAux p rest []
    else fieldsFuncAux p rest (c :: cur)

/-- Accumulator pass of Go `strings.Fields`, which splits around
`unicode.IsSpace` characters. -/
def fieldsAux : List Char → List Char → List (List Char) :=
  fieldsFuncAux goIsSpace

/-- Go `strings.Fields` on a character list. -/
def stringsFields (l : List Char) : List (List Char) :=
  fieldsAux l []

/-- Go `strings.Join(words, " ")` on character lists. -/
def joinWords : List (List Char) → List Char
  | [] => []
  | [w] => w
  | w :: ws => w ++ (' ') :: joinWords ws

/-- Left trim of Go `strings.TrimSpace`. -/
def trimLeftSpace (l : List Char) : List Char :=
  l.dropWhile goIsSpace

/-- Go `strings.TrimSpace` on a character list: drop leading and trailing
whitespace. -/
def stringsTrimSpace (l : List Char) : List Char :=
  trimLeftSpace (trimLeftSpace l.reverse).reverse

/-- Embedding of `cleanText` (scraper.go:178-180):
`strings.TrimSpace(strings.Join(strings.Fields(text), " "))`. -/
def cleanText (text : String) : String :=
  String.mk (stringsTrimSpace (joinWords (stringsFields (String.data text))))

/-- Embedding of the Go error values produced by the scraper code, by their
construction; `GoError.message` renders the `Error()` string, mirroring the
`fmt.Errorf` format strings in scraper.go. -/
inductive GoError where
  | noURLsProvided : GoError
  | rateLimiterWaitFailed (cause : GoError) : GoError
  | failedToScrape (url : String) (cause : GoError) : GoError
  | invalidFlipboardURL (url : String) : GoError
  | scrapingCancelled (cause : GoError) : GoError
  | requestFailedWithStatus (status : Int) (cause : GoError) : GoError
  | failedToStartScraping (cause : GoError) : GoError
  | scrapingError (cause : GoError) : GoError
  | ctxCanceled : GoError
  | ctxDeadlineExceeded : GoError
  | alreadyVisited : GoError
deriving DecidableEq

/-- Error message of each embedded Go error (`Error()` strings; the wrapping
constructors mirror the `fmt.Errorf` format strings of scraper.go, the leaf
constructors the messages of `context.Canceled`, `context.DeadlineExceeded`
and colly `ErrAlreadyVisited`). -/
def GoError.message : GoError → String
  | .noURLsProvided => "no URLs provided"
  | .rateLimiterWaitFailed c => "rate limiter wait failed: " ++ c.message
  | .failedToScrape u c => "failed to scrape " ++ u ++ (": ") ++ c.message
  | .invalidFlipboardURL u => "invalid Flipboard URL: " ++ u
  | .scrapingCancelled c => "scraping cancelled: " ++ c.message
  | .requestFailedWithStatus s c =>
      "request failed with status " ++ toString s ++ (": ") ++ c.message
  | .failedToStartScraping c => "failed to start scraping: " ++ c.message
  | .scrapingError c => "scraping error: " ++ c.message
  | .ctxCanceled => "context canceled"
  | .ctxDeadlineExceeded => "context deadline exceeded"
  | .alreadyVisited => "URL already visited"

/-- Test that `pat` is an initial segment of `l`. -/
def startsWithList : List Char → List Char → Bool
  | [], _ => true
  | _ :: _, [] => false
  | p :: ps, c :: cs => p == c && startsWithList ps cs

/-- Embedding of Go `strings.HasPrefix` on the character lists of the two
strings. -/
def goHasPrefix (s pre : String) : Bool :=
  startsWithList (String.data pre) (String.data s)

/-- Embedding of the `Article` struct (scraper.go:36-41); `Date` is a
rational timestamp. -/
structure Article where
  Title : String
  URL : String
  Summary : String
  Date : ℚ
deriving DecidableEq

/-- Embedding of one `article.item` content block of a fetched document, by
the three pieces the `OnHTML` callback reads from it: the `h3` text, the
`a` element's `href` attribute, and the `p.description` text. -/
structure Block where
  h3 : String
  href : String
  description : String
deriving DecidableEq

/-- Embedding of the `OnHTML("article.item", ...)` callback body
(scraper.go:135-147) over all blocks of a document: build an article from
each block (title and summary cleaned, date set to the extraction time) and
keep it only when the title is non-empty. -/
def extractArticles (blocks : List Block) (obsTime : ℚ) : List Article :=
  blocks.filterMap (fun b =>
    let a : Article :=
      { Title := cleanText b.h3, URL := b.href,
        Summary := cleanText b.description, Date := obsTime }
    if a.Title = ("") then none else some a)

/-- Embedding of the `rate.Limiter` token-bucket state
(`golang.org/x/time/rate`): steady rate, burst capacity, current token count
and time of the last reservation. -/
structure Limiter where
  rateLimit : ℚ
  burst : ℚ
  tokens : ℚ
  last : ℚ
deriving DecidableEq

/-- Embedding of the `rate.Limiter` reservation made by `Wait` (`reserveN`):
refill tokens for the time elapsed since the last update (capped at the
burst), take one token (possibly going negative), and return the updated
limiter together with the time at which the reservation can act, i.e. the
time the waiting task resumes and issues its request. -/
def Limiter.reserve (l : Limiter) (now : ℚ) : Limiter × ℚ :=
  let lastSeen := if now < l.last then now else l.last
  let refill := l.tokens + l.rateLimit * (now - lastSeen)
  let capped := if l.burst < refill then l.burst else refill
  let tok := capped - 1
  let waitDur := if tok < 0 then (0 - tok) / l.rateLimit else 0
  ({ l with tokens := tok, last := now }, now + waitDur)

/-- Embedding of `limiter.Wait(ctx)` as called in scraper.go:92: fails with
the context's error when the context is done, otherwise reserves a token and
blocks until the reservation's time. -/
def limiterWait (l : Limiter) (ce : Option GoError) (now : ℚ) :
    Except GoError (Limiter × ℚ) :=
  match ce with
  | some e => .error e
  | none => .ok (Limiter.reserve l now)

/-- Embedding of the colly collector state that scraper.go interacts with:
the `AllowURLRevisit` flag and the visited-URL store. -/
structure Collector where
  allowRevisit : Bool
  visited : List String
deriving DecidableEq

/-- Embedding of the revisit check performed by `Collector.Visit`
(`requestCheck` in colly): with `AllowURLRevisit` set, proceed without
touching the store; otherwise refuse an already-visited URL, and mark a
fresh URL visited. Returns whether the visit proceeds and the updated
collector. -/
def collyVisitCheck (c : Collector) (url : String) : Bool × Collector :=
  if c.allowRevisit then (true, c)
  else if c.visited.contains url then (false, c)
  else (true, { c with visited := c.visited ++ [url] })

/-- Outcome of the network fetch of one URL, as seen through the collector
callbacks: a parsed page of content blocks, a non-success response (the
`OnError` callback), or a `Visit` error other than the revisit check. -/
inductive FetchOutcome where
  | page (blocks : List Block) : FetchOutcome
  | httpError (status : Int) (cause : GoError) : FetchOutcome
  | visitError (cause : GoError) : FetchOutcome

/-- Environment of a scraping run: the document content served for each URL
and the wall-clock duration of fetching it. -/
structure Env where
  fetch : String → FetchOutcome
  fetchDur : String → ℚ

/-- Result of one `scrapeURL` call: the returned `([]Article, error)` pair,
the collector state after the call, whether a network request was issued,
and the time the call returned. -/
structure ScrapeOut where
  result : List Article × Option GoError
  collector : Collector
  requested : Bool
  endTime : ℚ
deriving DecidableEq

/-- Embedding of `scrapeURL` (scraper.go:125-175). Validation of the URL
prefix happens first. On a done context the select returns the cancellation
error with no articles and sets `AllowURLRevisit` (the background goroutine
still runs `Visit`, so the revisit check and its marking still happen).
Otherwise the visit runs: an already-visited URL makes `Visit` fail (wrapped
as "failed to start scraping"), a fetched page is extracted, a non-success
response yields the `OnError` wrapping, and any other `Visit` failure the
"failed to start scraping" wrapping. -/
def scrapeURL (env : Env) (ce : Option GoError) (c : Collector) (now : ℚ)
    (url : String) : ScrapeOut :=
  if goHasPrefix url ("https://flipboard.com/") then
    match ce with
    | some e =>
      let chk := collyVisitCheck c url
      { result := ([], some (.scrapingCancelled e)),
        collector := { allowRevisit := true, visited := chk.2.visited },
        requested := chk.1, endTime := now }
    | none =>
      let chk := collyVisitCheck c url
      if chk.1 then
        match env.fetch url with
        | .page blocks =>
          { result := (extractArticles blocks (now + env.fetchDur url), none),
            collector := chk.2, requested := true,
            endTime := now + env.fetchDur url }
        | .httpError status cause =>
          { result := ([], some (.requestFailedWithStatus status cause)),
            collector := chk.2, requested := true,
            endTime := now + env.fetchDur url }
        | .visitError cause =>
          { result := ([], some (.failedToStartScraping cause)),
            collector := chk.2, requested := true,
            endTime := now + env.fetchDur url }
      else
        { result := ([], some (.failedToStartScraping .alreadyVisited)),
          collector := c, requested := false, endTime := now }
  else
    { result := ([], some (.invalidFlipboardURL url)),
      collector := c, requested := false, endTime := now }

/-- Embedding of the `ScraperConfig` struct (scraper.go:17-24). -/
structure ScraperConfig where
  ConcurrentRequests : Int
  RequestsPerSecond : ℚ
  Timeout : ℚ
deriving DecidableEq

/-- Embedding of `DefaultConfig` (scraper.go:27-33); the timeout is two
minutes, in seconds. -/
def DefaultConfig : ScraperConfig :=
  { ConcurrentRequests := 3, RequestsPerSecond := 1, Timeout := 120 }

/-- Embedding of the `MagazineScraper` struct (scraper.go:44-49). -/
structure MagazineScraper where
  collector : Collector
  limiter : Limiter
  config : ScraperConfig
deriving DecidableEq

/-- Embedding of `NewMagazineScraper` (scraper.go:52-66): a fresh collector
(no URL visited, revisits not allowed) and a `rate.NewLimiter(RPS, 1)`
created at `createdAt` (the zero-valued Go limiter refills to its burst on
first use, so it starts with a full bucket of one token). -/
def NewMagazineScraper (config : ScraperConfig) (createdAt : ℚ) :
    MagazineScraper :=
  { collector := { allowRevisit := false, visited := [] },
    limiter :=
      { rateLimit := config.RequestsPerSecond, burst := 1, tokens := 1,
        last := createdAt },
    config := config }

/-- State threaded through the per-URL tasks of one `ScrapeURLs` invocation:
the shared limiter, the shared collector state, the errgroup's cancellation
flag and first-error slot, the mutex-protected article buffer, the current
time, and the traces of limiter grant times and issued network requests. -/
structure RunState where
  limiter : Limiter
  allowRevisit : Bool
  visited : List String
  cancelled : Bool
  firstErr : Option GoError
  articles : List Article
  now : ℚ
  grantTrace : List ℚ
  requestTrace : List ℚ
deriving DecidableEq

/-- Error reported by the errgroup-derived context: the caller-supplied
(timeout) context's error takes precedence; group cancellation reports
`context.Canceled`. -/
def ctxErr (parentErr : Option GoError) (st : RunState) : Option GoError :=
  match parentErr with
  | some e => some e
  | none => if st.cancelled then some GoError.ctxCanceled else none

/-- Embedding of a task returning a non-nil error to the errgroup: the
derived context is cancelled and, via `errOnce`, only the first error is
kept. -/
def recordErr (st : RunState) (e : GoError) : RunState :=
  { st with cancelled := true,
            firstErr := match st.firstErr with
                        | some e0 => some e0
                        | none => some e }

/-- Embedding of the per-URL task body passed to `g.Go` (scraper.go:90-108):
wait on the shared rate limiter (failing with the wrapped context error when
the derived context is done), then `scrapeURL`, then append the returned
articles under the mutex; a failure of either step is wrapped and handed to
the errgroup. -/
def runTask (env : Env) (parentErr : Option GoError) (st : RunState)
    (url : String) : RunState :=
  match limiterWait st.limiter (ctxErr parentErr st) st.now with
  | .error e => recordErr st (.rateLimiterWaitFailed e)
  | .ok lt =>
    let st1 : RunState :=
      { st with
        limiter := lt.1, now := lt.2,
        grantTrace := st.grantTrace ++ [lt.2] }
    let out := scrapeURL env (ctxErr parentErr st)
      { allowRevisit := st1.allowRevisit, visited := st1.visited } lt.2 url
    let st2 : RunState :=
      { st1 with
        allowRevisit := out.collector.allowRevisit,
        visited := out.collector.visited,
        now := out.endTime,
        requestTrace :=
          if out.requested then st1.requestTrace ++ [lt.2]
          else st1.requestTrace }
    match out.result.2 with
    | none => { st2 with articles := st2.articles ++ out.result.1 }
    | some e => recordErr st2 (.failedToScrape url e)

/-- Initial task state of one `ScrapeURLs` invocation over scraper `s`
starting at `startTime`. -/
def initState (s : MagazineScraper) (startTime : ℚ) : RunState :=
  { limiter := s.limiter, allowRevisit := s.collector.allowRevisit,
    visited := s.collector.visited, cancelled := false, firstErr := none,
    articles := [], now := startTime, grantTrace := [], requestTrace := [] }

/-- Fold of the per-URL tasks from a given state, in task order. -/
def runFrom (env : Env) (parentErr : Option GoError) (st : RunState)
    (urls : List String) : RunState :=
  urls.foldl (runTask env parentErr) st

/-- Full task-state run of `ScrapeURLs` over a non-empty URL list. -/
def ScrapeURLsRun (env : Env) (parentErr : Option GoError)
    (s : MagazineScraper) (startTime : ℚ) (urls : List String) : RunState :=
  runFrom env parentErr (initState s startTime) urls

/-- Embedding of `ScrapeURLs` (scraper.go:69-117): an empty URL list fails
immediately with the "no URLs provided" error, before the timeout context or
any task exists; otherwise the tasks run and the collected articles are
returned together with the first task error wrapped as "scraping error", or
no error when every task succeeded. The scraper's post-invocation shared
state is returned alongside. -/
def ScrapeURLs (env : Env) (parentErr : Option GoError) (s : MagazineScraper)
    (startTime : ℚ) (urls : List String) :
    (List Article × Option GoError) × MagazineScraper :=
  if urls.isEmpty then (([], some GoError.noURLsProvided), s)
  else
    let fin := ScrapeURLsRun env parentErr s startTime urls
    ((fin.articles, fin.firstErr.map GoError.scrapingError),
     { s with
       collector := { allowRevisit := fin.allowRevisit, visited := fin.visited },
       limiter := fin.limiter })

/-- Embedding of the exported `ScrapeURL` wrapper (scraper.go:120-122). -/
def ScrapeURL (env : Env) (ce : Option GoError) (c : Collector) (now : ℚ)
    (url : String) : ScrapeOut :=
  scrapeURL env ce c now url

/-! ## Property-side predicates used to state the claims -/

/-- Test that a character list has no two adjacent whitespace characters. -/
def noDoubleSpace : List Char → Bool
  | a :: b :: rest => (!(goIsSpace a && goIsSpace b)) && noDoubleSpace (b :: rest)
  | _ => true

/-- Normal form demanded of cleaned text: every whitespace character is a
plain space, no two whitespace characters are adjacent, and neither end is
whitespace. -/
def isNormalizedText (l : List Char) : Bool :=
  l.all (fun c => !goIsSpace c || c == (' ')) && noDoubleSpace l &&
  (match l.head? with | some c => !goIsSpace c | none => true) &&
  (match l.getLast? with | some c => !goIsSpace c | none => true)

/-- Test that `pat` occurs contiguously inside `l` (substring test). -/
def containsSeq (pat : List Char) : List Char → Bool
  | [] => startsWithList pat []
  | c :: cs => startsWithList pat (c :: cs) || containsSeq pat cs

/-! ## Concrete environments used by counterexamples and witnesses -/

/-- Environment in which the well-formed magazine URL
`https://flipboard.com/good` serves one article block and every other URL an
empty page; every fetch is instantaneous. -/
def envGood : Env :=
  { fetch := fun u =>
      if u == "https://flipboard.com/good" then
        FetchOutcome.page
          [{ h3 := "Good Title", href := "https://x", description := "sum" }]
      else FetchOutcome.page [],
    fetchDur := fun _ => 0 }

/-- Environment serving the same single-block static document for every URL;
every fetch is instantaneous. -/
def envStatic : Env :=
  { fetch := fun _ =>
      FetchOutcome.page
        [{ h3 := "A Title", href := "https://link", description := "desc" }],
    fetchDur := fun _ => 0 }

/-- Environment serving one block whose link attribute and summary text are
empty while the title is not. -/
def envBareBlock : Env :=
  { fetch := fun _ =>
      FetchOutcome.page [{ h3 := "T", href := "", description := "" }],
    fetchDur := fun _ => 0 }

/-! ## Claim theorems -/

set_option maxRecDepth 8000
set_option maxHeartbeats 1000000

/-- C8: for every environment, caller context and scraper, `ScrapeURLs` on
an empty URL list fails immediately with the empty-input error and produces
zero records, and the scraper (limiter, collector) is returned untouched —
no timeout context is derived and no task is created. -/
theorem c8_empty_input_rejected (env : Env) (parentErr : Option GoError)
    (s : MagazineScraper) (startTime : ℚ) :
    ScrapeURLs env parentErr s startTime [] =
      (([], some GoError.noURLsProvided), s) := rfl

/-- C5: a `scrapeURL` call on a well-formed URL whose context is already
done fails with the wrapped cancellation error and returns the empty record
list — never a partial page's records. -/
theorem c5_cancelled_fetch_returns_no_records (env : Env) (ce : GoError)
    (c : Collector) (now : ℚ) (url : String)
    (hurl : goHasPrefix url ("https://flipboard.com/") = true) :
    (scrapeURL env (some ce) c now url).result =
      ([], some (GoError.scrapingCancelled ce)) := by
  simp [scrapeURL, hurl]

/-- Witness for C5 at a concrete cancelled call. -/
theorem c5_cancelled_fetch_returns_no_records_witness :
    (scrapeURL envGood (some GoError.ctxCanceled)
        { allowRevisit := false, visited := [] } 0
        ("https://flipboard.com/good")).result =
      ([], some (GoError.scrapingCancelled GoError.ctxCanceled)) :=
  c5_cancelled_fetch_returns_no_records envGood GoError.ctxCanceled
    { allowRevisit := false, visited := [] } 0 ("https://flipboard.com/good")
    (by decide)

/-- C10: a `scrapeURL` call on a well-formed URL that fails due to context
cancellation sets the shared collector's `AllowURLRevisit` flag to true;
when the flag was previously false this changes the shared collector state,
which every subsequent call on the same scraper receives. -/
theorem c10_cancellation_sets_allow_revisit (env : Env) (ce : GoError)
    (c : Collector) (now : ℚ) (url : String)
    (hurl : goHasPrefix url ("https://flipboard.com/") = true) :
    (scrapeURL env (some ce) c now url).collector.allowRevisit = true ∧
    (c.allowRevisit = false →
      (scrapeURL env (some ce) c now url).collector ≠ c) := by
  constructor
  · simp [scrapeURL, hurl]
  · intro hfalse hcontra
    have h2 := congrArg Collector.allowRevisit hcontra
    simp [scrapeURL, hurl, hfalse] at h2

/-- Witness for C10 at a concrete cancelled call. -/
theorem c10_cancellation_sets_allow_revisit_witness :
    (scrapeURL envGood (some GoError.ctxCanceled)
        { allowRevisit := false, visited := [] } 0
        ("https://flipboard.com/good")).collector.allowRevisit = true ∧
    (scrapeURL envGood (some GoError.ctxCanceled)
        { allowRevisit := false, visited := [] } 0
        ("https://flipboard.com/good")).collector ≠
      { allowRevisit := false, visited := [] } :=
  ⟨(c10_cancellation_sets_allow_revisit envGood GoError.ctxCanceled
      { allowRevisit := false, visited := [] } 0
      ("https://flipboard.com/good") (by decide)).1,
   (c10_cancellation_sets_allow_revisit envGood GoError.ctxCanceled
      { allowRevisit := false, visited := [] } 0
      ("https://flipboard.com/good") (by decide)).2 rfl⟩

/-- C1 counterexample: in the run over
`["http://bad.example/", "https://flipboard.com/good"]` the first task's
failure cancels the errgroup context, the sibling task for the well-formed
URL fails at its rate-limiter wait, and no records at all are collected —
even though scraping the good URL alone would have produced a record. This
refutes the claim that sibling tasks still complete and that records from
well-formed URLs are collected when another URL fails. -/
theorem c1_counterexample_good_url_records_lost :
    (scrapeURL envGood none { allowRevisit := false, visited := [] } 0
        ("https://flipboard.com/good")).result.1 ≠ [] ∧
    (ScrapeURLs envGood none (NewMagazineScraper DefaultConfig 0) 0
        ["http://bad.example/", "https://flipboard.com/good"]).1 =
      ([], some (GoError.scrapingError (GoError.failedToScrape
        ("http://bad.example/")
        (GoError.invalidFlipboardURL ("http://bad.example/"))))) := by
  constructor
  · decide
  · norm_num [ScrapeURLs, ScrapeURLsRun, runFrom, runTask, initState,
      NewMagazineScraper, DefaultConfig, ctxErr, limiterWait, Limiter.reserve,
      scrapeURL, goHasPrefix, startsWithList, envGood, recordErr,
      collyVisitCheck]

/-- C2 counterexample: processing the invalid URL `http://invalid-url.com`
through a `ScrapeURLs` task changes the shared rate limiter's token state —
the task waits on the limiter before `scrapeURL` validates the URL, so the
invalid URL does consume a rate-limit token. -/
theorem c2_counterexample_token_consumed :
    (ScrapeURLsRun envGood none (NewMagazineScraper DefaultConfig 0) 0
        ["http://invalid-url.com"]).limiter.tokens ≠
      (NewMagazineScraper DefaultConfig 0).limiter.tokens := by
  norm_num [ScrapeURLsRun, runFrom, runTask, initState, NewMagazineScraper,
    DefaultConfig, ctxErr, limiterWait, Limiter.reserve, scrapeURL,
    goHasPrefix, startsWithList, envGood, recordErr, collyVisitCheck]
  decide

/-- C3 counterexample: with the caller's context already expired, the only
task fails while waiting on the rate limiter; `ScrapeURLs` returns a
non-nil summarized error whose message does not contain the failing URL,
refuting the claim that the summary's message always includes the failing
URL. -/
theorem c3_counterexample_message_lacks_url :
    ((ScrapeURLs envGood (some GoError.ctxDeadlineExceeded)
        (NewMagazineScraper DefaultConfig 0) 0
        ["https://flipboard.com/test"]).1.2 =
      some (GoError.scrapingError
        (GoError.rateLimiterWaitFailed GoError.ctxDeadlineExceeded))) ∧
    containsSeq (String.data ("https://flipboard.com/test"))
      (String.data (GoError.message (GoError.scrapingError
        (GoError.rateLimiterWaitFailed GoError.ctxDeadlineExceeded)))) =
      false := by
  constructor
  · norm_num [ScrapeURLs, ScrapeURLsRun, runFrom, runTask, initState,
      NewMagazineScraper, DefaultConfig, ctxErr, limiterWait, Limiter.reserve,
      scrapeURL, goHasPrefix, startsWithList, envGood, recordErr,
      collyVisitCheck]
  · decide

/-- C9: evaluation at the failing input. Scraping the same static document
twice on the same scraper is not idempotent: the first `scrapeURL` call for
`https://flipboard.com/m` succeeds with a non-empty record list, while the
second call for the very same URL and content fails with the collector's
already-visited error. Were the collector willing to revisit
(`AllowURLRevisit` set), the repeat extraction would succeed with the same
titles and summaries, confirming the spec's intent. -/
theorem c9_second_visit_fails_same_scraper :
    (scrapeURL envStatic none { allowRevisit := false, visited := [] } 0
        ("https://flipboard.com/m")).result.2 = none ∧
    (scrapeURL envStatic none { allowRevisit := false, visited := [] } 0
        ("https://flipboard.com/m")).result.1 ≠ [] ∧
    (scrapeURL envStatic none
        (scrapeURL envStatic none { allowRevisit := false, visited := [] } 0
          ("https://flipboard.com/m")).collector
        (scrapeURL envStatic none { allowRevisit := false, visited := [] } 0
          ("https://flipboard.com/m")).endTime
        ("https://flipboard.com/m")).result =
      ([], some (GoError.failedToStartScraping GoError.alreadyVisited)) ∧
    (scrapeURL envStatic none
        { allowRevisit := true, visited := ["https://flipboard.com/m"] } 5
        ("https://flipboard.com/m")).result.2 = none ∧
    (scrapeURL envStatic none
        { allowRevisit := true, visited := ["https://flipboard.com/m"] } 5
        ("https://flipboard.com/m")).result.1.map
        (fun a => (a.Title, a.Summary)) =
      (scrapeURL envStatic none { allowRevisit := false, visited := [] } 0
        ("https://flipboard.com/m")).result.1.map
        (fun a => (a.Title, a.Summary)) := by
  refine ⟨?_, ?_, ?_, ?_, ?_⟩ <;>
    · norm_num [scrapeURL, goHasPrefix, startsWithList, envStatic,
        collyVisitCheck, extractArticles] <;> decide

/-! ## Text-normalization lemmas (C7) -/

/-- Every word produced by the `FieldsFunc` accumulator is non-empty and
contains no separator character, provided the accumulated run does not. -/
theorem fieldsFuncAux_words (p : Char → Bool) (l : List Char) :
    ∀ (cur : List Char), (∀ c ∈ cur, p c = false) →
    ∀ w ∈ fieldsFuncAux p l cur, w ≠ [] ∧ ∀ c ∈ w, p c = false := by
  induction l with
  | nil =>
    intro cur hcur w hw
    cases cur with
    | nil => simp [fieldsFuncAux] at hw
    | cons a as =>
      rw [fieldsFuncAux.eq_2 p (a :: as) (by simp)] at hw
      simp only [List.mem_singleton] at hw
      subst hw
      exact ⟨by simp, fun c hc => hcur c (List.mem_reverse.mp hc)⟩
  | cons c rest ih =>
    intro cur hcur w hw
    by_cases hs : p c
    · cases cur with
      | nil =>
        rw [fieldsFuncAux.eq_3, if_pos hs] at hw
        exact ih [] (by simp) w hw
      | cons a as =>
        rw [fieldsFuncAux.eq_4 p (a :: as) c rest (by simp), if_pos hs] at hw
        rcases List.mem_cons.mp hw with h | h
        · subst h
          exact ⟨by simp, fun x hx => hcur x (List.mem_reverse.mp hx)⟩
        · exact ih [] (by simp) w h
    · have hs2 : p c = false := by simpa using hs
      cases cur with
      | nil =>
        rw [fieldsFuncAux.eq_3, if_neg (by simp [hs2])] at hw
        refine ih [c] ?_ w hw
        intro x hx
        simp only [List.mem_singleton] at hx
        subst hx
        exact hs2
      | cons a as =>
        rw [fieldsFuncAux.eq_4 p (a :: as) c rest (by simp),
          if_neg (by simp [hs2])] at hw
        refine ih (c :: a :: as) ?_ w hw
        intro x hx
        rcases List.mem_cons.mp hx with h | h
        · subst h; exact hs2
        · exact hcur x h

/-- Every field of `strings.Fields` is non-empty and whitespace-free. -/
theorem stringsFields_words (l : List Char) :
    ∀ w ∈ stringsFields l, w ≠ [] ∧ ∀ c ∈ w, goIsSpace c = false :=
  fieldsFuncAux_words goIsSpace l [] (by simp)

/-- Prepending a character that cannot form a whitespace pair with the head
preserves `noDoubleSpace`. -/
theorem noDoubleSpace_cons (a : Char) (xs : List Char)
    (h1 : ∀ b, xs.head? = some b → (goIsSpace a && goIsSpace b) = false)
    (h2 : noDoubleSpace xs = true) : noDoubleSpace (a :: xs) = true := by
  cases xs with
  | nil => rfl
  | cons b rest => simp [noDoubleSpace, h1 b rfl, h2]

/-- A whitespace-free list trivially has no double space. -/
theorem noDoubleSpace_all (w : List Char)
    (h : ∀ c ∈ w, goIsSpace c = false) : noDoubleSpace w = true := by
  induction w with
  | nil => rfl
  | cons a w2 ih =>
    refine noDoubleSpace_cons a w2 (fun b hb => ?_)
      (ih fun c hc => h c (List.mem_cons_of_mem a hc))
    simp [h a (List.mem_cons_self a w2)]

/-- Prepending a whitespace-free word preserves `noDoubleSpace`. -/
theorem noDoubleSpace_word (w xs : List Char)
    (hw : ∀ c ∈ w, goIsSpace c = false)
    (hx : noDoubleSpace xs = true) : noDoubleSpace (w ++ xs) = true := by
  induction w with
  | nil => simpa
  | cons a w2 ih =>
    refine noDoubleSpace_cons a (w2 ++ xs) (fun b hb => ?_)
      (ih fun c hc => hw c (List.mem_cons_of_mem a hc))
    simp [hw a (List.mem_cons_self a w2)]

/-- Joining from a non-empty first word yields a non-empty list. -/
theorem joinWords_ne_nil (w : List Char) (ws : List (List Char))
    (hw : w ≠ []) : joinWords (w :: ws) ≠ [] := by
  cases ws with
  | nil => simpa [joinWords]
  | cons w2 ws2 => simp [joinWords]

/-- The head of a join starting with a non-empty word is that word's head. -/
theorem joinWords_head (w : List Char) (ws : List (List Char)) (hw : w ≠ []) :
    (joinWords (w :: ws)).head? = w.head? := by
  cases ws with
  | nil => rfl
  | cons w2 ws2 =>
    show (w ++ (' ') :: joinWords (w2 :: ws2)).head? = w.head?
    exact List.head?_append_of_ne_nil _ hw

/-- The head of a join of non-empty whitespace-free words is never
whitespace. -/
theorem joinWords_head_nonspace (ws : List (List Char))
    (hne : ∀ w ∈ ws, w ≠ [])
    (hns : ∀ w ∈ ws, ∀ c ∈ w, goIsSpace c = false) :
    ∀ c, (joinWords ws).head? = some c → goIsSpace c = false := by
  cases ws with
  | nil => simp [joinWords]
  | cons w ws2 =>
    intro c hc
    rw [joinWords_head w ws2 (hne w (List.mem_cons_self w ws2))] at hc
    exact hns w (List.mem_cons_self w ws2) c (List.mem_of_mem_head? hc)

/-- The last element of a join of non-empty whitespace-free words is never
whitespace. -/
theorem joinWords_last_nonspace (ws : List (List Char))
    (hne : ∀ w ∈ ws, w ≠ [])
    (hns : ∀ w ∈ ws, ∀ c ∈ w, goIsSpace c = false) :
    ∀ c, (joinWords ws).getLast? = some c → goIsSpace c = false := by
  induction ws with
  | nil => simp [joinWords]
  | cons w ws2 ih =>
    cases ws2 with
    | nil =>
      intro c hc
      exact hns w (List.mem_cons_self w []) c (List.mem_of_mem_getLast? hc)
    | cons w2 ws3 =>
      intro c hc
      have hstep : joinWords (w :: w2 :: ws3) =
          w ++ (' ') :: joinWords (w2 :: ws3) := rfl
      rw [hstep, List.getLast?_append_of_ne_nil w (by simp)] at hc
      have hni : joinWords (w2 :: ws3) ≠ [] :=
        joinWords_ne_nil w2 ws3 (hne w2 (by simp))
      obtain ⟨x, xs, hxx⟩ := List.exists_cons_of_ne_nil hni
      rw [hxx, List.getLast?_cons_cons] at hc
      refine ih (fun v hv => hne v (by simp [hv]))
        (fun v hv => hns v (by simp [hv])) c ?_
      rw [hxx]
      exact hc

/-- Every character of a join of whitespace-free words is either
non-whitespace or the single-space separator. -/
theorem joinWords_chars (ws : List (List Char))
    (hns : ∀ w ∈ ws, ∀ c ∈ w, goIsSpace c = false) :
    ∀ c ∈ joinWords ws, goIsSpace c = false ∨ c = (' ') := by
  induction ws with
  | nil => simp [joinWords]
  | cons w ws2 ih =>
    cases ws2 with
    | nil =>
      intro c hc
      exact Or.inl (hns w (by simp) c hc)
    | cons w2 ws3 =>
      intro c hc
      have hstep : joinWords (w :: w2 :: ws3) =
          w ++ (' ') :: joinWords (w2 :: ws3) := rfl
      rw [hstep] at hc
      rcases List.mem_append.mp hc with h | h
      · exact Or.inl (hns w (by simp) c h)
      · rcases List.mem_cons.mp h with h | h
        · exact Or.inr h
        · exact ih (fun v hv => hns v (by simp [hv])) c h

/-- A join of non-empty whitespace-free words never holds two adjacent
whitespace characters. -/
theorem joinWords_noDouble (ws : List (List Char))
    (hne : ∀ w ∈ ws, w ≠ [])
    (hns : ∀ w ∈ ws, ∀ c ∈ w, goIsSpace c = false) :
    noDoubleSpace (joinWords ws) = true := by
  induction ws with
  | nil => rfl
  | cons w ws2 ih =>
    cases ws2 with
    | nil =>
      show noDoubleSpace w = true
      exact noDoubleSpace_all w (hns w (by simp))
    | cons w2 ws3 =>
      have hstep : joinWords (w :: w2 :: ws3) =
          w ++ (' ') :: joinWords (w2 :: ws3) := rfl
      rw [hstep]
      refine noDoubleSpace_word w _ (hns w (by simp)) ?_
      refine noDoubleSpace_cons (' ') _ (fun b hb => ?_)
        (ih (fun v hv => hne v (by simp [hv]))
          (fun v hv => hns v (by simp [hv])))
      rw [joinWords_head w2 ws3 (hne w2 (by simp))] at hb
      have hbs : goIsSpace b = false :=
        hns w2 (by simp) b (List.mem_of_mem_head? hb)
      simp [hbs]

/-- Left trim is the identity when the head is not whitespace. -/
theorem trimLeft_id (l : List Char)
    (h : ∀ c, l.head? = some c → goIsSpace c = false) : trimLeftSpace l = l := by
  cases l with
  | nil => rfl
  | cons a as => simp [trimLeftSpace, List.dropWhile_cons, h a rfl]

/-- TrimSpace is the identity on a list whose two ends are not whitespace. -/
theorem stringsTrimSpace_id (l : List Char)
    (hh : ∀ c, l.head? = some c → goIsSpace c = false)
    (hl : ∀ c, l.getLast? = some c → goIsSpace c = false) :
    stringsTrimSpace l = l := by
  unfold stringsTrimSpace
  rw [trimLeft_id l.reverse (fun c hc => hl c (by rwa [List.head?_reverse] at hc)),
    List.reverse_reverse, trimLeft_id l hh]

/-- Output of `cleanText` is always in whitespace normal form: every
whitespace character is a plain space, no two are adjacent, and neither end
is whitespace. -/
theorem cleanText_normalized (s : String) :
    isNormalizedText (String.data (cleanText s)) = true := by
  show isNormalizedText
    (stringsTrimSpace (joinWords (stringsFields (String.data s)))) = true
  have hws := stringsFields_words (String.data s)
  revert hws
  generalize stringsFields (String.data s) = ws
  intro hws
  have hne : ∀ w ∈ ws, w ≠ [] := fun w hw => (hws w hw).1
  have hns : ∀ w ∈ ws, ∀ c ∈ w, goIsSpace c = false := fun w hw => (hws w hw).2
  cases ws with
  | nil => rfl
  | cons w ws2 =>
    have hhead := joinWords_head_nonspace (w :: ws2) hne hns
    have hlast := joinWords_last_nonspace (w :: ws2) hne hns
    rw [stringsTrimSpace_id _ hhead hlast]
    have hchars := joinWords_chars (w :: ws2) hns
    have hnd := joinWords_noDouble (w :: ws2) hne hns
    simp only [isNormalizedText, Bool.and_eq_true]
    refine ⟨⟨⟨?_, hnd⟩, ?_⟩, ?_⟩
    · rw [List.all_eq_true]
      intro c hc
      rcases hchars c hc with h | h
      · simp [h]
      · simp [h]
    · cases hh : (joinWords (w :: ws2)).head? with
      | none => rfl
      | some c => simp [hhead c hh]
    · cases hh : (joinWords (w :: ws2)).getLast? with
      | none => rfl
      | some c => simp [hlast c hh]

/-- C7: `cleanText` collapses every run of whitespace (tabs, newlines and
carriage returns included) into single spaces and trims both ends: the four
specified test vectors hold, and every output is in whitespace normal form
(all whitespace is a single plain space, never two adjacent, never at either
end). -/
theorem c7_cleanText_normalization :
    cleanText ("  Hello   World  ") = ("Hello World") ∧
    cleanText ("\tTest\nString\r\n") = ("Test String") ∧
    cleanText ("") = ("") ∧
    cleanText ("Normal text") = ("Normal text") ∧
    ∀ s : String, isNormalizedText (String.data (cleanText s)) = true :=
  ⟨by decide, by decide, by decide, by decide, cleanText_normalized⟩

/-! ## Mandatory-title lemmas (C6) -/

/-- Every article built by the extraction callback has a non-empty title:
blocks with an empty cleaned title are dropped. -/
theorem extractArticles_title_nonempty (blocks : List Block) (t : ℚ)
    (a : Article) (ha : a ∈ extractArticles blocks t) : a.Title ≠ ("") := by
  simp only [extractArticles, List.mem_filterMap] at ha
  obtain ⟨b, _, heq⟩ := ha
  by_cases h : cleanText b.h3 = ("")
  · simp [h] at heq
  · simp [h] at heq
    subst heq
    simpa using h

/-- Every article in any `scrapeURL` result has a non-empty title. -/
theorem scrapeURL_title_nonempty (env : Env) (ce : Option GoError)
    (c : Collector) (now : ℚ) (url : String) (a : Article)
    (ha : a ∈ (scrapeURL env ce c now url).result.1) : a.Title ≠ ("") := by
  unfold scrapeURL at ha
  by_cases hp : goHasPrefix url ("https://flipboard.com/")
  · rw [if_pos hp] at ha
    cases ce with
    | some e => simp at ha
    | none =>
      by_cases hchk : (collyVisitCheck c url).1
      · rw [if_pos hchk] at ha
        cases hf : env.fetch url with
        | page blocks =>
          rw [hf] at ha
          exact extractArticles_title_nonempty blocks _ a (by simpa using ha)
        | httpError st cause => rw [hf] at ha; simp at ha
        | visitError cause => rw [hf] at ha; simp at ha
      · rw [if_neg hchk] at ha
        simp at ha
  · rw [if_neg hp] at ha
    simp at ha

/-- C6: every record produced by extraction has a non-empty normalized
title — a block whose cleaned title is empty is discarded and never appears
in any `scrapeURL` result — while the URL and Summary fields of a returned
record may both be empty strings. -/
theorem c6_title_mandatory_link_summary_optional :
    (∀ (env : Env) (ce : Option GoError) (c : Collector) (now : ℚ)
        (url : String) (a : Article),
        a ∈ (scrapeURL env ce c now url).result.1 → a.Title ≠ ("")) ∧
    ∃ a : Article,
      a ∈ (scrapeURL envBareBlock none { allowRevisit := false, visited := [] }
            0 ("https://flipboard.com/x")).result.1 ∧
      a.URL = ("") ∧ a.Summary = ("") := by
  constructor
  · exact scrapeURL_title_nonempty
  · norm_num [scrapeURL, envBareBlock, goHasPrefix, startsWithList,
      collyVisitCheck, extractArticles]
    exact ⟨⟨cleanText ("T"), (""), cleanText (""), 0⟩, ⟨by decide, rfl⟩, rfl, rfl⟩

/-- Witness for C6 at a concrete extracted record. -/
theorem c6_title_mandatory_link_summary_optional_witness :
    ({ Title := cleanText ("T"), URL := (""), Summary := cleanText (""),
       Date := 0 } : Article).Title ≠ ("") :=
  (c6_title_mandatory_link_summary_optional).1 envBareBlock none
    { allowRevisit := false, visited := [] } 0 ("https://flipboard.com/x") _
    (by norm_num [scrapeURL, envBareBlock, goHasPrefix, startsWithList,
        collyVisitCheck, extractArticles] <;> decide)

/-! ## Task-order and error-propagation lemmas (C1, C2, C3) -/

/-- Folding the tasks over a cons peels one task. -/
theorem runFrom_cons (env : Env) (parentErr : Option GoError) (st : RunState)
    (u : String) (us : List String) :
    runFrom env parentErr st (u :: us) =
      runFrom env parentErr (runTask env parentErr st u) us := rfl

/-- On a cancelled group the derived context reports an error. -/
theorem ctxErr_of_cancelled (parentErr : Option GoError) (st : RunState)
    (hc : st.cancelled = true) : ∃ e2, ctxErr parentErr st = some e2 := by
  cases parentErr with
  | none => exact ⟨GoError.ctxCanceled, by simp [ctxErr, hc]⟩
  | some e => exact ⟨e, rfl⟩

/-- A task started under a done context fails at the rate-limiter wait and
only records that wrapped error. -/
theorem runTask_of_cancelled (env : Env) (parentErr : Option GoError)
    (st : RunState) (u : String) (e2 : GoError)
    (hce : ctxErr parentErr st = some e2) :
    runTask env parentErr st u =
      recordErr st (GoError.rateLimiterWaitFailed e2) := by
  unfold runTask
  rw [hce]
  rfl

/-- C1 amended: the failure of one per-URL task cancels the shared errgroup
context, so every later task fails at its rate-limiter wait and contributes
nothing: the article buffer, the recorded first error, the grant trace and
the request trace are all unchanged by the remaining tasks — only records
collected before the first failure survive, although every task still runs
to completion. -/
theorem c1_amended_failure_cancels_siblings (env : Env)
    (parentErr : Option GoError) (st : RunState) (urls : List String)
    (e : GoError) (hc : st.cancelled = true) (he : st.firstErr = some e) :
    (runFrom env parentErr st urls).articles = st.articles ∧
    (runFrom env parentErr st urls).firstErr = some e ∧
    (runFrom env parentErr st urls).cancelled = true ∧
    (runFrom env parentErr st urls).requestTrace = st.requestTrace ∧
    (runFrom env parentErr st urls).grantTrace = st.grantTrace := by
  induction urls generalizing st with
  | nil => exact ⟨rfl, he, hc, rfl, rfl⟩
  | cons u us ih =>
    obtain ⟨e2, hce⟩ := ctxErr_of_cancelled parentErr st hc
    rw [runFrom_cons, runTask_of_cancelled env parentErr st u e2 hce]
    have h2 := ih (recordErr st (GoError.rateLimiterWaitFailed e2))
      (by simp [recordErr]) (by simp [recordErr, he])
    simpa [recordErr] using h2

/-- Witness for the amended C1 at a concrete already-failed state. -/
theorem c1_amended_failure_cancels_siblings_witness :
    (runFrom envGood none
        (recordErr (initState (NewMagazineScraper DefaultConfig 0) 0)
          GoError.ctxCanceled) ["https://flipboard.com/good"]).articles =
      (recordErr (initState (NewMagazineScraper DefaultConfig 0) 0)
        GoError.ctxCanceled).articles ∧
    (runFrom envGood none
        (recordErr (initState (NewMagazineScraper DefaultConfig 0) 0)
          GoError.ctxCanceled) ["https://flipboard.com/good"]).firstErr =
      some GoError.ctxCanceled ∧
    (runFrom envGood none
        (recordErr (initState (NewMagazineScraper DefaultConfig 0) 0)
          GoError.ctxCanceled) ["https://flipboard.com/good"]).cancelled =
      true ∧
    (runFrom envGood none
        (recordErr (initState (NewMagazineScraper DefaultConfig 0) 0)
          GoError.ctxCanceled) ["https://flipboard.com/good"]).requestTrace =
      (recordErr (initState (NewMagazineScraper DefaultConfig 0) 0)
        GoError.ctxCanceled).requestTrace ∧
    (runFrom envGood none
        (recordErr (initState (NewMagazineScraper DefaultConfig 0) 0)
          GoError.ctxCanceled) ["https://flipboard.com/good"]).grantTrace =
      (recordErr (initState (NewMagazineScraper DefaultConfig 0) 0)
        GoError.ctxCanceled).grantTrace :=
  c1_amended_failure_cancels_siblings envGood none
    (recordErr (initState (NewMagazineScraper DefaultConfig 0) 0)
      GoError.ctxCanceled) ["https://flipboard.com/good"]
    GoError.ctxCanceled rfl rfl

/-- C2 amended: `scrapeURL` rejects a URL without the required prefix
immediately — error returned, collector untouched, no request issued, no
time consumed — but the per-URL task waits on the shared rate limiter
before validating, so with a live context the invalid URL still consumes a
rate-limit token (the limiter ends in the post-reservation state) while the
request trace stays unchanged (no network call). -/
theorem c2_amended_invalid_url_consumes_token (env : Env)
    (ce : Option GoError) (c : Collector) (now : ℚ) (url : String)
    (parentErr : Option GoError) (st : RunState)
    (hurl : goHasPrefix url ("https://flipboard.com/") = false) :
    scrapeURL env ce c now url =
      { result := ([], some (GoError.invalidFlipboardURL url)),
        collector := c, requested := false, endTime := now } ∧
    (ctxErr parentErr st = none →
      (runTask env parentErr st url).requestTrace = st.requestTrace ∧
      (runTask env parentErr st url).limiter =
        (Limiter.reserve st.limiter st.now).1) := by
  constructor
  · simp [scrapeURL, hurl]
  · intro hctx
    unfold runTask
    rw [hctx]
    simp [limiterWait, scrapeURL, hurl, recordErr]

/-- Witness for the amended C2 at the concrete invalid URL. -/
theorem c2_amended_invalid_url_consumes_token_witness :
    scrapeURL envGood none { allowRevisit := false, visited := [] } 0
        ("http://invalid-url.com") =
      { result := ([], some (GoError.invalidFlipboardURL
          ("http://invalid-url.com"))),
        collector := { allowRevisit := false, visited := [] },
        requested := false, endTime := 0 } ∧
    (runTask envGood none (initState (NewMagazineScraper DefaultConfig 0) 0)
        ("http://invalid-url.com")).requestTrace =
      (initState (NewMagazineScraper DefaultConfig 0) 0).requestTrace ∧
    (runTask envGood none (initState (NewMagazineScraper DefaultConfig 0) 0)
        ("http://invalid-url.com")).limiter =
      (Limiter.reserve
        (initState (NewMagazineScraper DefaultConfig 0) 0).limiter
        (initState (NewMagazineScraper DefaultConfig 0) 0).now).1 :=
  ⟨(c2_amended_invalid_url_consumes_token envGood none
      { allowRevisit := false, visited := [] } 0 ("http://invalid-url.com")
      none (initState (NewMagazineScraper DefaultConfig 0) 0)
      (by decide)).1,
   (c2_amended_invalid_url_consumes_token envGood none
      { allowRevisit := false, visited := [] } 0 ("http://invalid-url.com")
      none (initState (NewMagazineScraper DefaultConfig 0) 0)
      (by decide)).2 rfl⟩

/-- Errors recorded in the first-error slot survive the rest of a task. -/
theorem firstErr_persists_task (env : Env) (parentErr : Option GoError)
    (st : RunState) (u : String) (e : GoError)
    (he : st.firstErr = some e) :
    (runTask env parentErr st u).firstErr = some e := by
  unfold runTask
  cases hlw : limiterWait st.limiter (ctxErr parentErr st) st.now with
  | error e2 => simp [recordErr, he]
  | ok pr =>
    obtain ⟨l2, t⟩ := pr
    dsimp only
    cases hres : (scrapeURL env (ctxErr parentErr st)
        { allowRevisit := st.allowRevisit, visited := st.visited } t u).result with
    | mk arts oerr =>
      cases oerr with
      | none => simp [hres, he]
      | some e3 => simp [hres, recordErr, he]

/-- Errors recorded in the first-error slot survive all later tasks. -/
theorem firstErr_persists_run (env : Env) (parentErr : Option GoError)
    (urls : List String) : ∀ (st : RunState) (e : GoError),
    st.firstErr = some e →
    (runFrom env parentErr st urls).firstErr = some e := by
  induction urls with
  | nil => intro st e he; exact he
  | cons u us ih =>
    intro st e he
    rw [runFrom_cons]
    exact ih _ e (firstErr_persists_task env parentErr st u e he)

/-- A non-nil final error is exactly the error of the first failing task:
the URL list splits into an error-free prefix, the failing task, and the
remainder. -/
theorem runFrom_firstErr_split (env : Env) (parentErr : Option GoError)
    (urls : List String) : ∀ (st : RunState) (e : GoError),
    st.firstErr = none →
    (runFrom env parentErr st urls).firstErr = some e →
    ∃ us1 u us2, urls = us1 ++ u :: us2 ∧
      (runFrom env parentErr st us1).firstErr = none ∧
      (runTask env parentErr (runFrom env parentErr st us1) u).firstErr =
        some e := by
  induction urls with
  | nil =>
    intro st e h0 hrun
    rw [show runFrom env parentErr st [] = st from rfl, h0] at hrun
    cases hrun
  | cons u us ih =>
    intro st e h0 hrun
    cases hstep : (runTask env parentErr st u).firstErr with
    | some e1 =>
      have hfin : (runFrom env parentErr st (u :: us)).firstErr = some e1 := by
        rw [runFrom_cons]
        exact firstErr_persists_run env parentErr us _ e1 hstep
      rw [hrun] at hfin
      injection hfin with h
      subst h
      exact ⟨[], u, us, rfl, h0, hstep⟩
    | none =>
      obtain ⟨us1, u1, us2, heq, h1, h2⟩ :=
        ih (runTask env parentErr st u) e hstep (by rwa [runFrom_cons] at hrun)
      exact ⟨u :: us1, u1, us2, by rw [heq]; rfl,
        by rwa [runFrom_cons], by rwa [runFrom_cons]⟩

/-- Prefix test succeeds on a literal prefix extension. -/
theorem startsWithList_self_append (pat r : List Char) :
    startsWithList pat (pat ++ r) = true := by
  induction pat with
  | nil => rfl
  | cons p ps ih => simp [startsWithList, ih]

/-- A prefix occurrence is an occurrence. -/
theorem containsSeq_of_startsWith (pat l : List Char)
    (h : startsWithList pat l = true) : containsSeq pat l = true := by
  cases l with
  | nil => exact h
  | cons c cs => simp [containsSeq, h]

/-- Occurrences survive prepending. -/
theorem containsSeq_append_left (pat x l : List Char)
    (h : containsSeq pat l = true) : containsSeq pat (x ++ l) = true := by
  induction x with
  | nil => simpa
  | cons c x2 ih => simp [containsSeq, ih]

/-- A list occurs in any surrounding concatenation. -/
theorem containsSeq_infix (pat x y : List Char) :
    containsSeq pat (x ++ pat ++ y) = true := by
  rw [List.append_assoc]
  exact containsSeq_append_left pat x (pat ++ y)
    (containsSeq_of_startsWith pat (pat ++ y) (startsWithList_self_append pat y))

/-- The summarized message of a wrapped scrape failure contains both the
failing URL and the underlying cause's message. -/
theorem scrape_failure_message_contains (u2 : String) (cause : GoError) :
    containsSeq (String.data u2)
      (String.data (GoError.message (GoError.scrapingError
        (GoError.failedToScrape u2 cause)))) = true ∧
    containsSeq (String.data (GoError.message cause))
      (String.data (GoError.message (GoError.scrapingError
        (GoError.failedToScrape u2 cause)))) = true := by
  constructor
  · show containsSeq (String.data u2) (String.data
      (("scraping error: ") ++ (("failed to scrape ") ++ u2 ++ (": ") ++
        GoError.message cause))) = true
    simp only [String.data_append]
    rw [show (String.data ("scraping error: ")) ++
        ((String.data ("failed to scrape ")) ++ String.data u2 ++
          (String.data (": ")) ++ String.data (GoError.message cause)) =
      ((String.data ("scraping error: ")) ++ String.data ("failed to scrape ")) ++
        String.data u2 ++
        ((String.data (": ")) ++ String.data (GoError.message cause)) by
        simp [List.append_assoc]]
    exact containsSeq_infix _ _ _
  · show containsSeq (String.data (GoError.message cause)) (String.data
      (("scraping error: ") ++ (("failed to scrape ") ++ u2 ++ (": ") ++
        GoError.message cause))) = true
    simp only [String.data_append]
    rw [show (String.data ("scraping error: ")) ++
        ((String.data ("failed to scrape ")) ++ String.data u2 ++
          (String.data (": ")) ++ String.data (GoError.message cause)) =
      ((String.data ("scraping error: ")) ++ (String.data ("failed to scrape ")) ++
        String.data u2 ++ (String.data (": "))) ++
        String.data (GoError.message cause) ++ [] by
        simp [List.append_assoc]]
    exact containsSeq_infix _ _ _

/-- C3 amended: for a non-empty URL list, `ScrapeURLs` returns a nil error
exactly when no task recorded a failure; the collected articles are
returned in full also alongside an error; a non-nil error wraps the first
failing task's error (the URL list splits into an error-free prefix and
that first failing task); and whenever the first failure arose from
scraping a URL, the summarized message contains that URL and the underlying
cause — a failure at the rate-limiter wait, by contrast, carries no URL
(see the counterexample). -/
theorem c3_amended_error_summary (env : Env) (parentErr : Option GoError)
    (s : MagazineScraper) (t0 : ℚ) (urls : List String) (hne : urls ≠ []) :
    ((ScrapeURLs env parentErr s t0 urls).1.2 = none ↔
      (ScrapeURLsRun env parentErr s t0 urls).firstErr = none) ∧
    (ScrapeURLs env parentErr s t0 urls).1.1 =
      (ScrapeURLsRun env parentErr s t0 urls).articles ∧
    (∀ e, (ScrapeURLs env parentErr s t0 urls).1.2 = some e →
      ∃ e0 us1 u us2, urls = us1 ++ u :: us2 ∧
        e = GoError.scrapingError e0 ∧
        (runFrom env parentErr (initState s t0) us1).firstErr = none ∧
        (runTask env parentErr (runFrom env parentErr (initState s t0) us1)
          u).firstErr = some e0) ∧
    (∀ (u2 : String) (cause : GoError),
      containsSeq (String.data u2)
        (String.data (GoError.message (GoError.scrapingError
          (GoError.failedToScrape u2 cause)))) = true ∧
      containsSeq (String.data (GoError.message cause))
        (String.data (GoError.message (GoError.scrapingError
          (GoError.failedToScrape u2 cause)))) = true) := by
  have hif : (urls.isEmpty = true) = False := by
    simp [List.isEmpty_iff, hne]
  refine ⟨?_, ?_, ?_, scrape_failure_message_contains⟩
  · simp only [ScrapeURLs, hif, if_false]
    exact Option.map_eq_none'
  · simp only [ScrapeURLs, hif, if_false]
  · intro e he
    simp only [ScrapeURLs, hif, if_false] at he
    obtain ⟨e0, he0, hmap⟩ := Option.map_eq_some'.mp he
    obtain ⟨us1, u, us2, hsplit, h1, h2⟩ :=
      runFrom_firstErr_split env parentErr urls (initState s t0) e0 rfl he0
    exact ⟨e0, us1, u, us2, hsplit, hmap.symm, h1, h2⟩

/-! ## Rate-limiter lemmas (C4) -/

/-- Closed form of one reservation when time has not run backwards. -/
theorem reserve_eq (l : Limiter) (now : ℚ) (hlast : l.last ≤ now) :
    l.reserve now =
      ({ rateLimit := l.rateLimit, burst := l.burst,
         tokens := (if l.burst < l.tokens + l.rateLimit * (now - l.last)
           then l.burst else l.tokens + l.rateLimit * (now - l.last)) - 1,
         last := now },
       now + (if (if l.burst < l.tokens + l.rateLimit * (now - l.last)
             then l.burst else l.tokens + l.rateLimit * (now - l.last)) - 1 < 0
         then (0 - ((if l.burst < l.tokens + l.rateLimit * (now - l.last)
             then l.burst
             else l.tokens + l.rateLimit * (now - l.last)) - 1)) / l.rateLimit
         else 0)) := by
  have hnl : ¬(now < l.last) := not_lt.mpr hlast
  simp only [Limiter.reserve, if_neg hnl]

/-- Shape of one reservation on a burst-1 limiter: rate and burst are
preserved, the bucket ends non-positive, the reservation time is recorded,
and the grant time is the arrival plus the refill debt — never before the
arrival. -/
theorem reserve_spec (l : Limiter) (now : ℚ) (hR : 0 < l.rateLimit)
    (hb : l.burst = 1) (htok : l.tokens ≤ 1) (hlast : l.last ≤ now) :
    (l.reserve now).1.rateLimit = l.rateLimit ∧
    (l.reserve now).1.burst = 1 ∧
    (l.reserve now).1.tokens ≤ 0 ∧
    (l.reserve now).1.last = now ∧
    (l.reserve now).2 = now + (0 - (l.reserve now).1.tokens) / l.rateLimit ∧
    now ≤ (l.reserve now).2 := by
  rw [reserve_eq l now hlast]
  set q : ℚ := if l.burst < l.tokens + l.rateLimit * (now - l.last)
    then l.burst else l.tokens + l.rateLimit * (now - l.last) with hq
  have hq1 : q ≤ 1 := by
    rw [hq]
    by_cases hcap : l.burst < l.tokens + l.rateLimit * (now - l.last)
    · rw [if_pos hcap, hb]
    · rw [if_neg hcap]
      rw [hb] at hcap
      linarith [not_lt.mp hcap]
  have hwd : (if q - 1 < 0 then (0 - (q - 1)) / l.rateLimit else 0) =
      (0 - (q - 1)) / l.rateLimit := by
    by_cases hneg : q - 1 < 0
    · rw [if_pos hneg]
    · rw [if_neg hneg]
      have hz : q - 1 = 0 := le_antisymm (by linarith) (not_lt.mp hneg)
      rw [hz]
      simp
  have hnn : 0 ≤ (0 - (q - 1)) / l.rateLimit :=
    div_nonneg (by linarith) (le_of_lt hR)
  exact ⟨rfl, hb, by simpa using hq1, rfl, by rw [hwd], by rw [hwd]; linarith⟩

/-- On a burst-1 limiter whose bucket is non-positive, a new grant comes at
least `1/rate` after the previous grant time [the token-bucket spacing
property]. -/
theorem reserve_gap (l : Limiter) (now tprev : ℚ) (hR : 0 < l.rateLimit)
    (hb : l.burst = 1) (htok : l.tokens ≤ 0) (hlast : l.last ≤ now)
    (hprev : tprev = l.last + (0 - l.tokens) / l.rateLimit) :
    tprev + 1 / l.rateLimit ≤ (l.reserve now).2 := by
  rw [reserve_eq l now hlast]
  by_cases hcap : l.burst < l.tokens + l.rateLimit * (now - l.last)
  · simp only [if_pos hcap]
    rw [hb] at hcap
    have key : tprev + 1 / l.rateLimit ≤ now := by
      rw [hprev]
      have h1 : (1 - l.tokens) / l.rateLimit < now - l.last := by
        rw [div_lt_iff hR]
        nlinarith [hcap]
      have h3 : (0 - l.tokens) / l.rateLimit + 1 / l.rateLimit =
          (1 - l.tokens) / l.rateLimit := by ring
      linarith
    have hwd : 0 ≤ (if l.burst - 1 < 0 then
        (0 - (l.burst - 1)) / l.rateLimit else 0) := by
      by_cases hneg : l.burst - 1 < 0
      · rw [if_pos hneg]
        exact div_nonneg (by linarith) (le_of_lt hR)
      · rw [if_neg hneg]
    linarith
  · simp only [if_neg hcap]
    have hrle : l.tokens + l.rateLimit * (now - l.last) ≤ 1 := by
      rw [hb] at hcap
      exact not_lt.mp hcap
    have htok1 : l.tokens + l.rateLimit * (now - l.last) - 1 ≤ 0 := by linarith
    have hwd : (if l.tokens + l.rateLimit * (now - l.last) - 1 < 0 then
        (0 - (l.tokens + l.rateLimit * (now - l.last) - 1)) / l.rateLimit
        else 0) =
        (0 - (l.tokens + l.rateLimit * (now - l.last) - 1)) / l.rateLimit := by
      by_cases hneg : l.tokens + l.rateLimit * (now - l.last) - 1 < 0
      · rw [if_pos hneg]
      · rw [if_neg hneg]
        have hz : l.tokens + l.rateLimit * (now - l.last) - 1 = 0 :=
          le_antisymm htok1 (not_lt.mp hneg)
        rw [hz]
        simp
    rw [hwd, hprev]
    have hexp : (0 - (l.tokens + l.rateLimit * (now - l.last) - 1)) /
        l.rateLimit =
        (0 - l.tokens) / l.rateLimit + 1 / l.rateLimit - (now - l.last) := by
      field_simp
      ring
    rw [hexp]
    linarith

/-- Invariant threaded through a `ScrapeURLs` run for rate `R`: the shared
limiter keeps rate `R` and burst 1 with at most one token, time does not run
backwards, consecutive limiter grants are at least `1/R` apart, the network
requests are a subsequence of the grants, and the last grant time matches
the limiter's refill debt. -/
def RateInv (R : ℚ) (st : RunState) : Prop :=
  st.limiter.rateLimit = R ∧ st.limiter.burst = 1 ∧ st.limiter.tokens ≤ 1 ∧
  st.limiter.last ≤ st.now ∧
  List.Chain' (fun a b => a + 1 / R ≤ b) st.grantTrace ∧
  st.requestTrace.Sublist st.grantTrace ∧
  (∀ t, st.grantTrace.getLast? = some t →
    st.limiter.tokens ≤ 0 ∧
    t = st.limiter.last + (0 - st.limiter.tokens) / R)

/-- `scrapeURL` never returns before it was called. -/
theorem scrapeURL_endTime_ge (env : Env) (ce : Option GoError)
    (c : Collector) (now : ℚ) (url : String)
    (hdur : 0 ≤ env.fetchDur url) :
    now ≤ (scrapeURL env ce c now url).endTime := by
  unfold scrapeURL
  by_cases hp : goHasPrefix url ("https://flipboard.com/")
  · rw [if_pos hp]
    cases ce with
    | some e => exact le_refl now
    | none =>
      by_cases hchk : (collyVisitCheck c url).1
      · rw [if_pos hchk]
        cases env.fetch url with
        | page blocks => dsimp only; linarith
        | httpError st2 cause => dsimp only; linarith
        | visitError cause => dsimp only; linarith
      · rw [if_neg hchk]
  · rw [if_neg hp]

/-- Normal form of a task whose context is live: reserve a token, scrape,
and commit the outcome. -/
theorem runTask_ok_eq (env : Env) (parentErr : Option GoError)
    (st : RunState) (url : String) (hce : ctxErr parentErr st = none) :
    runTask env parentErr st url =
      (let lt := Limiter.reserve st.limiter st.now
       let st1 : RunState :=
         { st with
           limiter := lt.1, now := lt.2,
           grantTrace := st.grantTrace ++ [lt.2] }
       let out := scrapeURL env none
         { allowRevisit := st1.allowRevisit, visited := st1.visited } lt.2 url
       let st2 : RunState :=
         { st1 with
           allowRevisit := out.collector.allowRevisit,
           visited := out.collector.visited,
           now := out.endTime,
           requestTrace :=
             if out.requested then st1.requestTrace ++ [lt.2]
             else st1.requestTrace }
       match out.result.2 with
       | none => { st2 with articles := st2.articles ++ out.result.1 }
       | some e => recordErr st2 (GoError.failedToScrape url e)) := by
  unfold runTask
  rw [hce]
  rfl

/-- One task preserves the rate invariant: a cancelled task changes nothing
relevant, and a live task's reservation extends the grant chain by at least
`1/R` and the request trace by at most the same grant. -/
theorem runTask_inv (env : Env) (parentErr : Option GoError) (R : ℚ)
    (hR : 0 < R) (hdur : ∀ u2, 0 ≤ env.fetchDur u2) (st : RunState)
    (u : String) (h : RateInv R st) :
    RateInv R (runTask env parentErr st u) := by
  obtain ⟨h1, h2, h3, h4, h5, h6, h7⟩ := h
  cases hce : ctxErr parentErr st with
  | some e2 =>
    rw [runTask_of_cancelled env parentErr st u e2 hce]
    exact ⟨h1, h2, h3, h4, h5, h6, h7⟩
  | none =>
    rw [runTask_ok_eq env parentErr st u hce]
    have hRl : 0 < st.limiter.rateLimit := by rw [h1]; exact hR
    obtain ⟨hs1, hs2, hs3, hs4, hs5, hs6⟩ :=
      reserve_spec st.limiter st.now hRl h2 h3 h4
    have hend : (Limiter.reserve st.limiter st.now).2 ≤
        (scrapeURL env none
          { allowRevisit := st.allowRevisit, visited := st.visited }
          (Limiter.reserve st.limiter st.now).2 u).endTime :=
      scrapeURL_endTime_ge env none _ _ u (hdur u)
    have hchain : List.Chain' (fun a b => a + 1 / R ≤ b)
        (st.grantTrace ++ [(Limiter.reserve st.limiter st.now).2]) := by
      rw [List.chain'_append]
      refine ⟨h5, List.chain'_singleton _, ?_⟩
      intro x hx y hy
      simp only [List.head?_cons, Option.mem_def, Option.some.injEq] at hy
      subst hy
      obtain ⟨ht0, hfm⟩ := h7 x (Option.mem_def.mp hx)
      have hg := reserve_gap st.limiter st.now x hRl h2 ht0 h4
        (by rw [hfm, h1])
      rw [h1] at hg
      exact hg
    have hlim : ∀ t2, (st.grantTrace ++
        [(Limiter.reserve st.limiter st.now).2]).getLast? = some t2 →
        (Limiter.reserve st.limiter st.now).1.tokens ≤ 0 ∧
        t2 = (Limiter.reserve st.limiter st.now).1.last +
          (0 - (Limiter.reserve st.limiter st.now).1.tokens) / R := by
      intro t2 ht2
      rw [List.getLast?_concat] at ht2
      injection ht2 with ht2
      subst ht2
      refine ⟨hs3, ?_⟩
      rw [hs5, hs4, h1]
    dsimp only
    cases hres : (scrapeURL env none
        { allowRevisit := st.allowRevisit, visited := st.visited }
        (Limiter.reserve st.limiter st.now).2 u).result.2 with
    | none =>
      dsimp only
      refine ⟨by rw [hs1, h1], hs2, by linarith [hs3], ?_, hchain, ?_, hlim⟩
      · rw [hs4]
        calc st.now ≤ (Limiter.reserve st.limiter st.now).2 := hs6
        _ ≤ _ := hend
      · by_cases hreq : (scrapeURL env none
            { allowRevisit := st.allowRevisit, visited := st.visited }
            (Limiter.reserve st.limiter st.now).2 u).requested
        · rw [if_pos hreq]
          exact h6.append (List.Sublist.refl _)
        · rw [if_neg hreq]
          exact h6.trans (List.sublist_append_left _ _)
    | some e3 =>
      dsimp only [recordErr]
      refine ⟨by rw [hs1, h1], hs2, by linarith [hs3], ?_, hchain, ?_, hlim⟩
      · rw [hs4]
        calc st.now ≤ (Limiter.reserve st.limiter st.now).2 := hs6
        _ ≤ _ := hend
      · by_cases hreq : (scrapeURL env none
            { allowRevisit := st.allowRevisit, visited := st.visited }
            (Limiter.reserve st.limiter st.now).2 u).requested
        · rw [if_pos hreq]
          exact h6.append (List.Sublist.refl _)
        · rw [if_neg hreq]
          exact h6.trans (List.sublist_append_left _ _)

/-- The rate invariant holds across the whole task fold. -/
theorem runFrom_inv (env : Env) (parentErr : Option GoError) (R : ℚ)
    (hR : 0 < R) (hdur : ∀ u2, 0 ≤ env.fetchDur u2) (urls : List String) :
    ∀ st, RateInv R st → RateInv R (runFrom env parentErr st urls) := by
  induction urls with
  | nil => intro st h; exact h
  | cons u us ih =>
    intro st h
    rw [runFrom_cons]
    exact ih _ (runTask_inv env parentErr R hR hdur st u h)

/-- In a list whose consecutive elements are at least `d` apart, the last
element exceeds the head by at least `d` per further element. -/
theorem chain_head_le_getLast (d : ℚ) :
    ∀ (ts : List ℚ) (t : ℚ),
    List.Chain' (fun a b => a + d ≤ b) (t :: ts) →
    t + ts.length * d ≤ (t :: ts).getLast (List.cons_ne_nil t ts) := by
  intro ts
  induction ts with
  | nil => intro t h; simp
  | cons t2 ts2 ih =>
    intro t h
    rw [List.chain'_cons] at h
    have hih := ih t2 h.2
    rw [List.getLast_cons (List.cons_ne_nil t2 ts2)]
    have h1 : t + d ≤ t2 := h.1
    rw [List.length_cons]
    push_cast
    linarith

/-- A list whose consecutive elements are at least `d > 0` apart has at most
`1/d + 1` elements inside any closed window of length one. -/
theorem chain_window_count (d w : ℚ) (hd : 0 < d) (ts : List ℚ)
    (h : List.Chain' (fun a b => a + d ≤ b) ts) :
    (((ts.filter (fun t => decide (w ≤ t) && decide (t ≤ w + 1))).length : ℚ)) ≤
      1 / d + 1 := by
  haveI : IsTrans ℚ (fun a b => a + d ≤ b) :=
    ⟨fun a b c hab hbc => by linarith⟩
  have hsubf : (ts.filter
      (fun t => decide (w ≤ t) && decide (t ≤ w + 1))).Sublist ts :=
    List.filter_sublist ts
  have hchainf := List.Chain'.sublist h hsubf
  cases hf : ts.filter (fun t => decide (w ≤ t) && decide (t ≤ w + 1)) with
  | nil =>
    simp only [List.length_nil, Nat.cast_zero]
    positivity
  | cons t ts2 =>
    rw [hf] at hchainf
    have hlastb := chain_head_le_getLast d ts2 t hchainf
    have hmem_head : t ∈ ts.filter
        (fun t => decide (w ≤ t) && decide (t ≤ w + 1)) := by
      rw [hf]
      exact List.mem_cons_self t ts2
    have hw1 : w ≤ t := by
      have hp := (List.mem_filter.mp hmem_head).2
      simp only [Bool.and_eq_true, decide_eq_true_eq] at hp
      exact hp.1
    have hmem_last : (t :: ts2).getLast (List.cons_ne_nil t ts2) ∈
        ts.filter (fun t => decide (w ≤ t) && decide (t ≤ w + 1)) := by
      rw [hf]
      exact List.getLast_mem (List.cons_ne_nil t ts2)
    have hw2 : (t :: ts2).getLast (List.cons_ne_nil t ts2) ≤ w + 1 := by
      have hp := (List.mem_filter.mp hmem_last).2
      simp only [Bool.and_eq_true, decide_eq_true_eq] at hp
      exact hp.2
    have hld : (ts2.length : ℚ) * d ≤ 1 := by linarith
    have hl2 : (ts2.length : ℚ) ≤ 1 / d := by
      rw [le_div_iff hd]
      linarith
    rw [List.length_cons]
    push_cast
    linarith

/-- C4: with `MaxRequestsPerSecond = R` and burst 1, over any sliding
one-second window during a `ScrapeURLs` run the number of network requests
issued across all tasks — which all wait on the one rate limiter shared by
reference through the run state — does not exceed `R + 1`. -/
theorem c4_rate_limit_window (env : Env) (parentErr : Option GoError)
    (cfg : ScraperConfig) (tc t0 w : ℚ) (urls : List String)
    (hR : 0 < cfg.RequestsPerSecond)
    (hdur : ∀ u2, 0 ≤ env.fetchDur u2) (htc : tc ≤ t0) :
    (((ScrapeURLsRun env parentErr (NewMagazineScraper cfg tc) t0
        urls).requestTrace.filter
        (fun t => decide (w ≤ t) && decide (t ≤ w + 1))).length : ℚ) ≤
      cfg.RequestsPerSecond + 1 := by
  have hinit : RateInv cfg.RequestsPerSecond
      (initState (NewMagazineScraper cfg tc) t0) := by
    refine ⟨rfl, rfl, le_refl 1, htc, List.chain'_nil, List.Sublist.refl _, ?_⟩
    intro t ht
    simp [initState] at ht
  have hfin := runFrom_inv env parentErr cfg.RequestsPerSecond hR hdur urls
    (initState (NewMagazineScraper cfg tc) t0) hinit
  obtain ⟨-, -, -, -, hchain, hsub, -⟩ := hfin
  have hcnt := chain_window_count (1 / cfg.RequestsPerSecond) w
    (by positivity) _ hchain
  have hle := (List.Sublist.filter
    (fun t => decide (w ≤ t) && decide (t ≤ w + 1)) hsub).length_le
  have hdiv : (1 : ℚ) / (1 / cfg.RequestsPerSecond) = cfg.RequestsPerSecond :=
    one_div_one_div _
  calc (((ScrapeURLsRun env parentErr (NewMagazineScraper cfg tc) t0
        urls).requestTrace.filter
        (fun t => decide (w ≤ t) && decide (t ≤ w + 1))).length : ℚ)
      ≤ (((runFrom env parentErr (initState (NewMagazineScraper cfg tc) t0)
        urls).grantTrace.filter
        (fun t => decide (w ≤ t) && decide (t ≤ w + 1))).length : ℚ) := by
        exact_mod_cast hle
    _ ≤ 1 / (1 / cfg.RequestsPerSecond) + 1 := hcnt
    _ = cfg.RequestsPerSecond + 1 := by rw [hdiv]

/-- Witness for C4 at a concrete three-URL run with rate 2. -/
theorem c4_rate_limit_window_witness :
    (((ScrapeURLsRun envGood none
        (NewMagazineScraper
          { ConcurrentRequests := 3, RequestsPerSecond := 2, Timeout := 120 }
          0) 0
        ["https://flipboard.com/a", "https://flipboard.com/b",
          "https://flipboard.com/c"]).requestTrace.filter
        (fun t => decide ((0 : ℚ) ≤ t) && decide (t ≤ 0 + 1))).length : ℚ) ≤
      ({ ConcurrentRequests := 3, RequestsPerSecond := 2, Timeout := 120 } :
        ScraperConfig).RequestsPerSecond + 1 :=
  c4_rate_limit_window envGood none
    { ConcurrentRequests := 3, RequestsPerSecond := 2, Timeout := 120 }
    0 0 0
    ["https://flipboard.com/a", "https://flipboard.com/b",
      "https://flipboard.com/c"]
    (by norm_num) (fun u2 => le_refl 0) (le_refl 0)

/-- Witness for the amended C3 at a concrete one-URL invocation. -/
theorem c3_amended_error_summary_witness :
    ((ScrapeURLs envGood none (NewMagazineScraper DefaultConfig 0) 0
        ["https://flipboard.com/good"]).1.2 = none ↔
      (ScrapeURLsRun envGood none (NewMagazineScraper DefaultConfig 0) 0
        ["https://flipboard.com/good"]).firstErr = none) ∧
    (ScrapeURLs envGood none (NewMagazineScraper DefaultConfig 0) 0
        ["https://flipboard.com/good"]).1.1 =
      (ScrapeURLsRun envGood none (NewMagazineScraper DefaultConfig 0) 0
        ["https://flipboard.com/good"]).articles ∧
    (∀ e, (ScrapeURLs envGood none (NewMagazineScraper DefaultConfig 0) 0
        ["https://flipboard.com/good"]).1.2 = some e →
      ∃ e0 us1 u us2, ["https://flipboard.com/good"] = us1 ++ u :: us2 ∧
        e = GoError.scrapingError e0 ∧
        (runFrom envGood none
          (initState (NewMagazineScraper DefaultConfig 0) 0) us1).firstErr =
          none ∧
        (runTask envGood none (runFrom envGood none
          (initState (NewMagazineScraper DefaultConfig 0) 0) us1)
          u).firstErr = some e0) ∧
    (∀ (u2 : String) (cause : GoError),
      containsSeq (String.data u2)
        (String.data (GoError.message (GoError.scrapingError
          (GoError.failedToScrape u2 cause)))) = true ∧
      containsSeq (String.data (GoError.message cause))
        (String.data (GoError.message (GoError.scrapingError
          (GoError.failedToScrape u2 cause)))) = true) :=
  c3_amended_error_summary envGood none (NewMagazineScraper DefaultConfig 0) 0
    ["https://flipboard.com/good"] (by simp)
